import Mathlib

/-!
Verification model of the hierarchical resolution-and-caching layer of the
file-retrieval bot (src/main.py).

The embedding is a shallow one: the stateful handler functions of main.py
become pure Lean functions that take an explicit environment (the Remote
File Store and Messaging Gateway behaviour), an explicit session value and
an explicit cache value, and return a result together with the new cache
and a trace of the external calls performed.  The SQLite cache tables
become association lists keyed by the normalized cache key; the Google
Drive query regexes become executable character-list matchers with the
exact semantics of the query strings written in the source.
-/

/-! ## Character and digit utilities -/

/-- Is the character a decimal digit, as in the regex character class 0-9. -/
def isDigit (c : Char) : Bool := decide ('0' ≤ c) && decide (c ≤ '9')

/-- Lower-case every character; models the case-insensitive matching mode
of the queries in src/main.py (re.IGNORECASE, and the case-insensitive
regex operator used in the Drive query strings). -/
def lowerChars (l : List Char) : List Char := l.map Char.toLower

/-- Models the Python str.upper() normalization applied to group and
subject arguments (ASCII arguments in this system). -/
def pyUpper (s : String) : String := String.mk (s.data.map Char.toUpper)

/-- Strip an exact literal pattern from the front of a character list,
returning the remainder on success. -/
def stripPrefixChars : List Char → List Char → Option (List Char)
  | [], s => some s
  | _ :: _, [] => none
  | p :: ps, c :: cs => if p = c then stripPrefixChars ps cs else none

/-- Numeric value of a list of digit characters, most significant first. -/
def digitsToNat (l : List Char) : Nat :=
  l.foldl (fun acc c => acc * 10 + (c.toNat - '0'.toNat)) 0

/-- Split off the maximal leading run of digit characters. -/
def takeDigits : List Char → List Char × List Char
  | [] => ([], [])
  | c :: cs =>
    if isDigit c then
      match takeDigits cs with
      | (ds, rest) => (c :: ds, rest)
    else ([], c :: cs)

/-- Value of a single digit character, none if not a digit. -/
def decDigit (c : Char) : Option Nat :=
  if isDigit c then some (c.toNat - '0'.toNat) else none

/-- All-digits parse of a nonempty character list. -/
def parseDigits (l : List Char) : Option Nat :=
  match l with
  | [] => none
  | _ => l.foldlM (fun acc c => (decDigit c).map (fun d => acc * 10 + d)) 0

/-- Models the int(number_str) conversion in get_assignment and get_note:
an optional sign followed by one or more decimal digits parses to an
integer, anything else raises ValueError (modelled as none).  The
whitespace trimming and underscore grouping that CPython additionally
accepts are not exercised by any claim and are omitted. -/
def pyInt (s : String) : Option Int :=
  match s.toList with
  | '-' :: rest => (parseDigits rest).map (fun m => -(m : Int))
  | '+' :: rest => (parseDigits rest).map (fun m => (m : Int))
  | l => (parseDigits l).map (fun m => (m : Int))

/-! ## The fetch-query matcher

get_assignment filters files with the Drive query pattern
  assignment_?{n}[^0-9]
and get_note with
  (unit|note)_?{n}[^0-9]
(case-insensitive unanchored regex search).  The matcher below implements
exactly that pattern language: one of the literal tokens, an optional
underscore, the decimal representation of the requested number, then one
character that is not a digit. -/

/-- Match the number literal followed by a required non-digit character at
the head of s: the {n}[^0-9] tail of the query pattern. -/
def matchNumAt (num s : List Char) : Bool :=
  match stripPrefixChars num s with
  | none => false
  | some [] => false
  | some (c :: _) => !(isDigit c)

/-- The optional underscore of the pattern: either consume a literal
underscore and then match the number tail, or match the number tail
directly (both branches of _? are tried, as regex backtracking does). -/
def underscoreOpt (num : List Char) : List Char → Bool
  | [] => matchNumAt num []
  | c :: rest2 =>
    (if c = '_' then matchNumAt num rest2 else false) || matchNumAt num (c :: rest2)

/-- Match the whole query pattern at the head of s: a token from the
alternation, then the optional underscore, then the number tail. -/
def matchPatAt (tokens : List (List Char)) (num s : List Char) : Bool :=
  tokens.any (fun tok =>
    match stripPrefixChars tok s with
    | none => false
    | some rest => underscoreOpt num rest)

/-- Unanchored search: try the pattern at every suffix. -/
def searchPat (tokens : List (List Char)) (num : List Char) : List Char → Bool
  | [] => false
  | c :: cs => matchPatAt tokens num (c :: cs) || searchPat tokens num cs

/-! ## The listing extraction

list_assignments extracts numbers with re.search, IGNORECASE, pattern
  assignment_(\d+)
and list_notes with pattern
  (?:unit|note)_(\d+)
on each file name: a token, a REQUIRED underscore, then a maximal run
of digits, taken at the leftmost position where the full pattern
matches. -/

/-- Try the extraction pattern at the head of s. -/
def extractAt (tokens : List (List Char)) (s : List Char) : Option Nat :=
  tokens.findSome? (fun tok =>
    match stripPrefixChars (tok ++ ['_']) s with
    | none => none
    | some rest =>
      match takeDigits rest with
      | ([], _) => none
      | (ds, _) => some (digitsToNat ds))

/-- Leftmost search for the extraction pattern, as re.search does. -/
def searchExtract (tokens : List (List Char)) : List Char → Option Nat
  | [] => none
  | c :: cs =>
    match extractAt tokens (c :: cs) with
    | some v => some v
    | none => searchExtract tokens cs

/-! ## Item kinds -/

/-- The two document kinds served by the bot: assignments (get_assignment,
list_assignments) and notes (get_note, list_notes).  The two handler
pairs in src/main.py are letter-for-letter identical up to the constants
collected here, so the model defines each pipeline once over the kind. -/
inductive Kind
  | assignment
  | note
deriving DecidableEq, Repr

/-- The kind subfolder name used in the resolved path chain. -/
def Kind.subfolder : Kind → String
  | .assignment => "Assignments"
  | .note => "Notes"

/-- The token alternation of the file-name patterns for the kind. -/
def Kind.tokens : Kind → List String
  | .assignment => ["assignment"]
  | .note => ["unit", "note"]

/-- The file filter applied by the Drive query in get_assignment and
get_note: case-insensitive token, optional underscore, the decimal
representation of n, then a non-digit character. -/
def fetch_query_matches (k : Kind) (n : Int) (name : String) : Bool :=
  searchPat (k.tokens.map String.toList) (toString n).toList (lowerChars name.toList)

/-- The per-file number extraction of list_assignments and list_notes:
case-insensitive token, required underscore, maximal digit run, at the
leftmost matching position; none when the file name has no match. -/
def extract_number (k : Kind) (name : String) : Option Int :=
  (searchExtract (k.tokens.map String.toList) (lowerChars name.toList)).map
    (fun v => (v : Int))

/-! ## Cache store (the SQLite tables assignment_cache and note_cache) -/

/-- One row key of a cache table: UNIQUE(year, group_name, subject,
number).  Keys are stored normalized: the cache accessors upper-case
group_name and subject before use. -/
structure CacheKey where
  year : String
  group_name : String
  subject : String
  number : Int
deriving DecidableEq, Repr

/-- A cache table: finitely many rows mapping a key to a telegram file
id.  The UNIQUE constraint of the schema means at most one live row per
key, which the model keeps by filtering on replace. -/
abbrev Cache := List (CacheKey × String)

/-- SELECT telegram_file_id FROM assignment_cache WHERE year = ? AND
group_name = ? AND subject = ? AND assignment_number = ?, with group_name
and subject upper-cased first, as in src/main.py lines 78-87. -/
def get_cached_assignment_id (cache : Cache) (year group_name subject : String)
    (assignment_number : Int) : Option String :=
  (cache.find? (fun e =>
      decide (e.1 = CacheKey.mk year (pyUpper group_name) (pyUpper subject) assignment_number))).map
    (fun e => e.2)

/-- INSERT OR REPLACE INTO assignment_cache, with group_name and subject
upper-cased first, as in src/main.py lines 89-97.  REPLACE deletes any
row with the same unique key and inserts the new row. -/
def cache_assignment_id (cache : Cache) (year group_name subject : String)
    (assignment_number : Int) (file_id : String) : Cache :=
  (CacheKey.mk year (pyUpper group_name) (pyUpper subject) assignment_number, file_id) ::
    cache.filter (fun e =>
      decide (e.1 ≠ CacheKey.mk year (pyUpper group_name) (pyUpper subject) assignment_number))

/-- SELECT from note_cache; same logic as the assignment accessor
(src/main.py lines 99-108). -/
def get_cached_note_id (cache : Cache) (year group_name subject : String)
    (note_number : Int) : Option String :=
  (cache.find? (fun e =>
      decide (e.1 = CacheKey.mk year (pyUpper group_name) (pyUpper subject) note_number))).map
    (fun e => e.2)

/-- INSERT OR REPLACE INTO note_cache; same logic as the assignment
writer (src/main.py lines 110-118). -/
def cache_note_id (cache : Cache) (year group_name subject : String)
    (note_number : Int) (file_id : String) : Cache :=
  (CacheKey.mk year (pyUpper group_name) (pyUpper subject) note_number, file_id) ::
    cache.filter (fun e =>
      decide (e.1 ≠ CacheKey.mk year (pyUpper group_name) (pyUpper subject) note_number))

/-- The cache reader selected by the kind. -/
def Kind.getCached : Kind → Cache → String → String → String → Int → Option String
  | .assignment => get_cached_assignment_id
  | .note => get_cached_note_id

/-- The cache writer selected by the kind. -/
def Kind.putCached : Kind → Cache → String → String → String → Int → String → Cache
  | .assignment => cache_assignment_id
  | .note => cache_note_id

/-! ## Remote File Store, Messaging Gateway and call traces -/

/-- A file entry as returned by the Drive files().list call: fields id
and name. -/
structure DriveFile where
  id : String
  name : String
deriving DecidableEq, Repr

/-- One external call performed by a handler, in order.  Only calls to
the Remote File Store (drive) and to the cache tables are recorded; chat
text replies are summarized by the result constructors.  The cache API of
src/main.py has no delete operation at all, so no delete event exists. -/
inductive Event
  | cacheGet (key : CacheKey)
  | cachePut (key : CacheKey) (handle : String)
  | driveLookup (name parent : String)
  | driveQuery (folder : String)
  | driveDownload (fileId : String)
  | sendById (handle : String)
  | sendContent (fileName : String)
deriving DecidableEq, Repr

/-- The behaviour of the two collaborators during one request, plus the
configured root folder id.  folderResp is the raw Drive response to the
files().list query issued by find_item_id_in_parent (error = HttpError);
childFoldersResp the raw response used by list_folders_in_parent; files
the result set of a plain children query of a folder (the Drive side
evaluates any name pattern in the query, which the model applies as a
filter over this set); download returns the bytes of a file or none on
HttpError; sendByHandle tells whether the gateway accepts a cached handle
(false = TelegramError); sendContent delivers fresh bytes and returns the
new handle, or none when the gateway raises.  The drive service object is
assumed initialized, as main() exits at startup otherwise. -/
structure Env where
  root : String
  folderResp : String → String → Except String (List DriveFile)
  childFoldersResp : String → Except String (List String)
  files : String → List DriveFile
  download : String → Option String
  sendByHandle : String → Bool
  sendContent : String → String → Option String

/-- find_item_id_in_parent (src/main.py lines 143-154) reduced to its
data flow: on an HttpError the function logs and returns None; otherwise
it returns the id of the first listed file, or None when the result set
is empty. -/
def find_item_id_in_parent (resp : Except String (List DriveFile)) : Option String :=
  match resp with
  | .error _ => none
  | .ok files => files.head?.map DriveFile.id

/-- list_folders_in_parent (src/main.py lines 156-165): on an HttpError
the function logs and returns the empty list; otherwise the listed
names. -/
def list_folders_in_parent (resp : Except String (List String)) : List String :=
  match resp with
  | .error _ => []
  | .ok names => names

/-- resolve_path_to_id (src/main.py lines 182-190): starting from the
given current folder id, look each path part up in order with
find_item_id_in_parent; stop at the first miss with None.  The second
component records the lookups actually performed, in order. -/
def resolve_path_to_id (env : Env) (current : String) :
    List String → Option String × List Event
  | [] => (some current, [])
  | p :: ps =>
    match find_item_id_in_parent (env.folderResp p current) with
    | none => (none, [Event.driveLookup p current])
    | some nid =>
      ((resolve_path_to_id env nid ps).1,
        Event.driveLookup p current :: (resolve_path_to_id env nid ps).2)

/-! ## The document fetch pipeline (get_assignment / get_note) -/

/-- Outcome of a fetch handler, one constructor per distinct reply path
of get_assignment and get_note.  notConfigured is the setup prompt of
check_user_setup; usageError the wrong-argument-count reply; badNumber
the number-must-be-integer reply; folderNotFound and fileNotFound the two
not-found edits; downloadError the drive-download failure edit;
deliveryError models an uncaught gateway exception while sending fresh
bytes (the handler aborts before the cache write); delivered is the
success path. -/
inductive FetchResult
  | notConfigured
  | usageError
  | badNumber
  | folderNotFound
  | fileNotFound
  | downloadError
  | deliveryError
  | delivered
deriving DecidableEq, Repr

/-- The shared tail of get_assignment and get_note after a cache miss or
a rejected cached handle (src/main.py lines 394-416 and 489-512): resolve
the kind subfolder chain, query the files matching the kind pattern for
n, take the first, download it, send the bytes, and on success write the
new telegram file id into the kind cache table. -/
def fetch_fresh (env : Env) (k : Kind) (year group subject : String) (n : Int)
    (cache : Cache) : FetchResult × Cache × List Event :=
  match (resolve_path_to_id env env.root [year, group, subject, k.subfolder]).1 with
  | none => (.folderNotFound, cache,
      (resolve_path_to_id env env.root [year, group, subject, k.subfolder]).2)
  | some folderId =>
    match (env.files folderId).filter (fun f => fetch_query_matches k n f.name) with
    | [] => (.fileNotFound, cache,
        (resolve_path_to_id env env.root [year, group, subject, k.subfolder]).2 ++
          [Event.driveQuery folderId])
    | f :: _ =>
      match env.download f.id with
      | none => (.downloadError, cache,
          (resolve_path_to_id env env.root [year, group, subject, k.subfolder]).2 ++
            [Event.driveQuery folderId, Event.driveDownload f.id])
      | some content =>
        match env.sendContent content f.name with
        | none => (.deliveryError, cache,
            (resolve_path_to_id env env.root [year, group, subject, k.subfolder]).2 ++
              [Event.driveQuery folderId, Event.driveDownload f.id])
        | some newHandle =>
          (.delivered, k.putCached cache year group subject n newHandle,
            (resolve_path_to_id env env.root [year, group, subject, k.subfolder]).2 ++
              [Event.driveQuery folderId, Event.driveDownload f.id,
                Event.sendContent f.name,
                Event.cachePut (CacheKey.mk year group subject n) newHandle])

/-- get_assignment (src/main.py lines 361-416) and get_note (456-512),
one definition over the kind.  session is the year stored in user_data
when setup is complete; args the command arguments; cache the kind cache
table.  Order as in the source: setup check, argument count check,
upper-casing, integer parse, cache lookup, attempted redelivery by
cached handle (falling through to the fresh fetch when the gateway
rejects it, without touching the cache), fresh fetch. -/
def get_document (env : Env) (k : Kind) (session : Option String)
    (args : List String) (cache : Cache) : FetchResult × Cache × List Event :=
  match session with
  | none => (.notConfigured, cache, [])
  | some year =>
    match args with
    | [g, s, numStr] =>
      match pyInt numStr with
      | none => (.badNumber, cache, [])
      | some n =>
        match k.getCached cache year (pyUpper g) (pyUpper s) n with
        | some cachedId =>
          if env.sendByHandle cachedId then
            (.delivered, cache,
              [Event.cacheGet (CacheKey.mk year (pyUpper g) (pyUpper s) n),
                Event.sendById cachedId])
          else
            ((fetch_fresh env k year (pyUpper g) (pyUpper s) n cache).1,
              (fetch_fresh env k year (pyUpper g) (pyUpper s) n cache).2.1,
              Event.cacheGet (CacheKey.mk year (pyUpper g) (pyUpper s) n) ::
                Event.sendById cachedId ::
                  (fetch_fresh env k year (pyUpper g) (pyUpper s) n cache).2.2)
        | none =>
          ((fetch_fresh env k year (pyUpper g) (pyUpper s) n cache).1,
            (fetch_fresh env k year (pyUpper g) (pyUpper s) n cache).2.1,
            Event.cacheGet (CacheKey.mk year (pyUpper g) (pyUpper s) n) ::
              (fetch_fresh env k year (pyUpper g) (pyUpper s) n cache).2.2)
    | _ => (.usageError, cache, [])

/-- The /get handler. -/
def get_assignment (env : Env) (session : Option String) (args : List String)
    (cache : Cache) : FetchResult × Cache × List Event :=
  get_document env .assignment session args cache

/-- The /getnote handler. -/
def get_note (env : Env) (session : Option String) (args : List String)
    (cache : Cache) : FetchResult × Cache × List Event :=
  get_document env .note session args cache

/-! ## The listing pipelines -/

/-- Outcome of list_assignments / list_notes. -/
inductive ListResult
  | notConfigured
  | usageError
  | folderNotFound
  | empty
  | numbers (l : List Int)
deriving DecidableEq, Repr

/-- Insert an integer into an ascending duplicate-free list, keeping it
ascending and duplicate-free. -/
def insertSortedDedup (n : Int) : List Int → List Int
  | [] => [n]
  | m :: ms =>
    if n < m then n :: m :: ms
    else if n = m then m :: ms
    else m :: insertSortedDedup n ms

/-- sorted(list({...})) of Python: the distinct values in ascending
order. -/
def sortedDedup (l : List Int) : List Int := l.foldr insertSortedDedup []

/-- Insert a string into a list kept in dictionary order. -/
def insertStr (a : String) : List String → List String
  | [] => [a]
  | b :: bs => if a < b then a :: b :: bs else b :: insertStr a bs

/-- sorted(...) over strings, used for display lists. -/
def sortStrings (l : List String) : List String := l.foldr insertStr []

/-- list_assignments (src/main.py lines 325-358) and list_notes
(419-453), one definition over the kind: setup check, argument count
check, upper-casing, resolution of the kind subfolder, a plain files
query, per-file number extraction, and the set of distinct numbers
sorted ascending; the empty set is reported as a no-items reply, not as
an error. -/
def list_documents (env : Env) (k : Kind) (session : Option String)
    (args : List String) : ListResult × List Event :=
  match session with
  | none => (.notConfigured, [])
  | some year =>
    match args with
    | [g, s] =>
      match (resolve_path_to_id env env.root
          [year, pyUpper g, pyUpper s, k.subfolder]).1 with
      | none => (.folderNotFound,
          (resolve_path_to_id env env.root [year, pyUpper g, pyUpper s, k.subfolder]).2)
      | some folderId =>
        if sortedDedup ((env.files folderId).filterMap
            (fun f => extract_number k f.name)) = [] then
          (.empty,
            (resolve_path_to_id env env.root [year, pyUpper g, pyUpper s, k.subfolder]).2
              ++ [Event.driveQuery folderId])
        else
          (.numbers (sortedDedup ((env.files folderId).filterMap
              (fun f => extract_number k f.name))),
            (resolve_path_to_id env env.root [year, pyUpper g, pyUpper s, k.subfolder]).2
              ++ [Event.driveQuery folderId])
    | _ => (.usageError, [])

/-- The /assignments handler. -/
def list_assignments (env : Env) (session : Option String) (args : List String) :
    ListResult × List Event :=
  list_documents env .assignment session args

/-- The /notes handler. -/
def list_notes (env : Env) (session : Option String) (args : List String) :
    ListResult × List Event :=
  list_documents env .note session args

/-- Outcome of the folder-name listing handlers. -/
inductive NamesResult
  | notConfigured
  | usageError
  | folderNotFound
  | empty
  | names (l : List String)
deriving DecidableEq, Repr

/-- list_subjects (src/main.py lines 291-322): setup check, at least one
argument, upper-case the group, resolve [year, group], list its child
folders, and reply with the sorted names (or a no-subjects reply). -/
def list_subjects (env : Env) (session : Option String) (args : List String) :
    NamesResult × List Event :=
  match session with
  | none => (.notConfigured, [])
  | some year =>
    match args with
    | [] => (.usageError, [])
    | g :: _ =>
      match (resolve_path_to_id env env.root [year, pyUpper g]).1 with
      | none => (.folderNotFound, (resolve_path_to_id env env.root [year, pyUpper g]).2)
      | some gid =>
        match list_folders_in_parent (env.childFoldersResp gid) with
        | [] => (.empty, (resolve_path_to_id env env.root [year, pyUpper g]).2
            ++ [Event.driveQuery gid])
        | subjects => (.names (sortStrings subjects),
            (resolve_path_to_id env env.root [year, pyUpper g]).2
              ++ [Event.driveQuery gid])

/-- list_branches_or_divisions (src/main.py lines 265-288): setup check,
one direct child lookup of the year folder under the root, list its
child folders, and reply with the sorted names (or a no-items reply). -/
def list_branches_or_divisions (env : Env) (session : Option String) :
    NamesResult × List Event :=
  match session with
  | none => (.notConfigured, [])
  | some year =>
    match find_item_id_in_parent (env.folderResp year env.root) with
    | none => (.folderNotFound, [Event.driveLookup year env.root])
    | some yid =>
      match list_folders_in_parent (env.childFoldersResp yid) with
      | [] => (.empty, [Event.driveLookup year env.root, Event.driveQuery yid])
      | items => (.names (sortStrings items),
          [Event.driveLookup year env.root, Event.driveQuery yid])

/-! ## A small concrete store for witnesses

A demo deployment: root ROOT, year folder 2nd_Year (id Y), group CSE
(id G), subject DBMS (id S), subfolders Assignments (id FA, one file
Assignment_2_final.pdf) and Notes (id FN, one file Unit_3.pdf).  The
gateway accepts only the fresh handle tg-new and rejects every other
cached handle. -/

/-- Demo Remote File Store and Messaging Gateway behaviour. -/
def envDemo : Env :=
  ⟨"ROOT",
   fun name parent =>
     if parent = "ROOT" ∧ name = "2nd_Year" then .ok [⟨"Y", "2nd_Year"⟩]
     else if parent = "Y" ∧ name = "CSE" then .ok [⟨"G", "CSE"⟩]
     else if parent = "G" ∧ name = "DBMS" then .ok [⟨"S", "DBMS"⟩]
     else if parent = "S" ∧ name = "Assignments" then .ok [⟨"FA", "Assignments"⟩]
     else if parent = "S" ∧ name = "Notes" then .ok [⟨"FN", "Notes"⟩]
     else .ok [],
   fun parent =>
     if parent = "Y" then .ok ["CSE", "AIDS"]
     else if parent = "G" then .ok ["DBMS"]
     else .ok [],
   fun parent =>
     if parent = "FA" then [⟨"fa2", "Assignment_2_final.pdf"⟩]
     else if parent = "FN" then [⟨"fn3", "Unit_3.pdf"⟩]
     else [],
   fun fileId =>
     if fileId = "fa2" then some "BYTES-A2"
     else if fileId = "fn3" then some "BYTES-N3"
     else none,
   fun handle => handle = "tg-new",
   fun _ _ => some "tg-new"⟩

/-- A demo assignment cache holding a stale handle for the demo key. -/
def cacheDemo : Cache := [(CacheKey.mk "2nd_Year" "CSE" "DBMS" 2, "tg-old")]

/-! ## Cache lemmas -/

/-- C3: a cache put followed by a cache get whose key agrees up to letter
case of group and subject (and exactly on year and number) returns the
stored handle: both accessors upper-case group and subject before use, so
key equality is decided on the normalized form. -/
theorem cache_read_after_write (cache : Cache) (year g s g' s' : String) (n : Int)
    (handle : String) (hg : pyUpper g = pyUpper g') (hs : pyUpper s = pyUpper s') :
    get_cached_assignment_id (cache_assignment_id cache year g s n handle) year g' s' n =
      some handle := by
  unfold get_cached_assignment_id cache_assignment_id
  rw [hg, hs]
  rw [List.find?_cons_of_pos _ (by simp)]
  simp

/-- C3 witness: storing under (2nd_Year, cse, dbms, 2) and reading back
under (2nd_Year, CSE, DBMS, 2) yields the stored handle. -/
theorem cache_read_after_write_witness :
    get_cached_assignment_id
        (cache_assignment_id ([] : Cache) "2nd_Year" "cse" "dbms" 2 "tg1")
        "2nd_Year" "CSE" "DBMS" 2 = some "tg1" :=
  cache_read_after_write ([] : Cache) "2nd_Year" "cse" "dbms" "CSE" "DBMS" 2 "tg1"
    (by decide) (by decide)

/-- The note cache reader has the same body as the assignment one. -/
theorem get_cached_note_eq : get_cached_note_id = get_cached_assignment_id := rfl

/-- The note cache writer has the same body as the assignment one. -/
theorem cache_note_eq : cache_note_id = cache_assignment_id := rfl

/-- Read-after-write through the kind-selected accessors, same key. -/
theorem Kind.getCached_putCached (k : Kind) (cache : Cache) (year g s : String)
    (n : Int) (fid : String) :
    k.getCached (k.putCached cache year g s n fid) year g s n = some fid := by
  cases k
  · exact cache_read_after_write cache year g s g s n fid rfl rfl
  · show get_cached_note_id (cache_note_id cache year g s n fid) year g s n = some fid
    rw [get_cached_note_eq, cache_note_eq]
    exact cache_read_after_write cache year g s g s n fid rfl rfl

/-! ## Path resolution lemmas -/

/-- Splitting a resolution at any point: resolving pre ++ rest first
resolves pre, and only on success continues with rest from the folder
pre reached, concatenating the traces. -/
theorem resolve_append (env : Env) (pre rest : List String) : ∀ cur,
    resolve_path_to_id env cur (pre ++ rest) =
      match (resolve_path_to_id env cur pre).1 with
      | none => resolve_path_to_id env cur pre
      | some f => ((resolve_path_to_id env f rest).1,
          (resolve_path_to_id env cur pre).2 ++ (resolve_path_to_id env f rest).2) := by
  induction pre with
  | nil =>
    intro cur
    simp [resolve_path_to_id]
  | cons p ps ih =>
    intro cur
    show resolve_path_to_id env cur (p :: (ps ++ rest)) = _
    rcases hf : find_item_id_in_parent (env.folderResp p cur) with _ | nid
    · simp [resolve_path_to_id, hf]
    · simp only [resolve_path_to_id, hf]
      rw [ih nid]
      rcases ho : (resolve_path_to_id env nid ps).1 with _ | f
      · simp [ho]
      · simp [ho]

/-- C6: resolution is strictly left-to-right from the given start; if the
lookup of a segment fails, the whole resolution returns none at once and
the trace ends with that failing lookup — no lookup is attempted for any
later segment.  Instantiating pre with the empty list gives the
non-existent-first-segment case with zero subsequent lookups. -/
theorem resolve_fail_fast (env : Env) (cur : String) (pre : List String) (p : String)
    (ps : List String) (f : String) (tr : List Event)
    (hpre : resolve_path_to_id env cur pre = (some f, tr))
    (hmiss : find_item_id_in_parent (env.folderResp p f) = none) :
    resolve_path_to_id env cur (pre ++ p :: ps) =
      (none, tr ++ [Event.driveLookup p f]) := by
  rw [resolve_append env pre (p :: ps) cur, hpre]
  simp [resolve_path_to_id, hmiss]

/-- C6 witness: in the demo store, resolving [2nd_Year, MECH, DBMS] fails
at MECH after exactly the two lookups 2nd_Year and MECH; the DBMS segment
is never looked up. -/
theorem resolve_fail_fast_witness :
    resolve_path_to_id envDemo "ROOT" (["2nd_Year"] ++ "MECH" :: ["DBMS"]) =
      (none, [Event.driveLookup "2nd_Year" "ROOT"] ++ [Event.driveLookup "MECH" "Y"]) :=
  resolve_fail_fast envDemo "ROOT" ["2nd_Year"] "MECH" ["DBMS"] "Y"
    [Event.driveLookup "2nd_Year" "ROOT"] (by decide) (by decide)

/-- Every event in a resolution trace is a folder lookup. -/
theorem resolve_trace_lookups (env : Env) : ∀ (parts : List String) (cur : String)
    (e : Event), e ∈ (resolve_path_to_id env cur parts).2 →
    ∃ nm p, e = Event.driveLookup nm p := by
  intro parts
  induction parts with
  | nil => intro cur e he; simp [resolve_path_to_id] at he
  | cons p ps ih =>
    intro cur e he
    rcases hf : find_item_id_in_parent (env.folderResp p cur) with _ | nid <;>
      simp only [resolve_path_to_id, hf] at he
    · simp at he
      exact ⟨p, cur, he⟩
    · simp at he
      rcases he with he | he
      · exact ⟨p, cur, he⟩
      · exact ih nid e he

/-! ## C7: remote error indistinguishable from absence in read paths -/

/-- C7: for a segment lookup, a remote-store error produces the same
result (none) as a folder that is simply absent, and listing child
folders produces the empty list both on remote error and on a missing
(childless) folder. -/
theorem read_paths_fail_soft (msg : String) :
    find_item_id_in_parent (Except.error msg) = none ∧
    find_item_id_in_parent (Except.ok ([] : List DriveFile)) = none ∧
    find_item_id_in_parent (Except.error msg) =
      find_item_id_in_parent (Except.ok ([] : List DriveFile)) ∧
    list_folders_in_parent (Except.error msg) = [] ∧
    list_folders_in_parent (Except.ok ([] : List String)) = [] ∧
    list_folders_in_parent (Except.error msg) =
      list_folders_in_parent (Except.ok ([] : List String)) :=
  ⟨rfl, rfl, rfl, rfl, rfl, rfl⟩

/-! ## C8: session gating -/

/-- C8: every document and listing operation first checks that the user
session holds a year; for an unconfigured session each operation replies
with the setup prompt (the notConfigured result) and returns with an
empty call trace — no Remote File Store call and no cache access — and
the fetch pipeline leaves the cache untouched. -/
theorem unconfigured_rejected_first (env : Env) (k : Kind) (args : List String)
    (cache : Cache) :
    get_document env k none args cache = (.notConfigured, cache, []) ∧
    list_documents env k none args = (.notConfigured, []) ∧
    list_subjects env none args = (.notConfigured, []) ∧
    list_branches_or_divisions env none = (.notConfigured, []) :=
  ⟨rfl, rfl, rfl, rfl⟩

/-! ## Characterization of the fetch-query matcher -/

/-- Stripping a literal succeeds exactly on strings extending it. -/
theorem stripPrefixChars_eq_some (pat : List Char) : ∀ (s r : List Char),
    stripPrefixChars pat s = some r ↔ s = pat ++ r := by
  induction pat with
  | nil =>
    intro s r
    simp [stripPrefixChars, eq_comm]
  | cons p ps ih =>
    intro s r
    cases s with
    | nil => simp [stripPrefixChars]
    | cons c cs =>
      by_cases hpc : p = c
      · subst hpc
        simp [stripPrefixChars, ih]
      · simp [stripPrefixChars, hpc, Ne.symm hpc]

/-- The number tail never matches an empty remainder: the pattern demands
a character after the number. -/
theorem matchNumAt_nil (num : List Char) : matchNumAt num [] = false := by
  cases num <;> rfl

/-- The number-tail matcher accepts exactly the remainders that start
with the number literal followed by a non-digit character. -/
theorem matchNumAt_iff (num s : List Char) :
    matchNumAt num s = true ↔ ∃ c rest, s = num ++ c :: rest ∧ isDigit c = false := by
  unfold matchNumAt
  rcases hs : stripPrefixChars num s with _ | r
  · simp only [Bool.false_eq_true, false_iff]
    rintro ⟨c, rest, hseq, -⟩
    rw [(stripPrefixChars_eq_some num s (c :: rest)).mpr hseq] at hs
    exact Option.noConfusion hs
  · have hseq := (stripPrefixChars_eq_some num s r).mp hs
    cases r with
    | nil =>
      simp only [Bool.false_eq_true, false_iff]
      rintro ⟨c, rest, hseq2, -⟩
      rw [hseq] at hseq2
      have := List.append_cancel_left hseq2
      exact List.noConfusion this
    | cons c cs =>
      simp only [Bool.not_eq_true']
      constructor
      · intro hd
        exact ⟨c, cs, hseq, hd⟩
      · rintro ⟨c2, rest2, hseq2, hd2⟩
        rw [hseq] at hseq2
        have := List.append_cancel_left hseq2
        injection this with h1 _
        rw [h1]
        exact hd2

/-- The optional-underscore step accepts exactly a consumed underscore
followed by a number tail, or a direct number tail. -/
theorem underscoreOpt_iff (num rest : List Char) :
    underscoreOpt num rest = true ↔
      (∃ rest2, rest = '_' :: rest2 ∧ matchNumAt num rest2 = true) ∨
        matchNumAt num rest = true := by
  cases rest with
  | nil => simp [underscoreOpt, matchNumAt_nil]
  | cons c rest2 =>
    by_cases hc : c = '_'
    · subst hc
      simp [underscoreOpt]
    · simp [underscoreOpt, hc, Ne.symm hc]

/-- The pattern never matches at the empty remainder. -/
theorem matchPatAt_nil (tokens : List (List Char)) (num : List Char) :
    matchPatAt tokens num [] = false := by
  unfold matchPatAt
  rw [List.any_eq_false]
  intro tok _
  cases tok <;> simp [stripPrefixChars, underscoreOpt, matchNumAt_nil]

/-- The full pattern matches at the head of s exactly when s starts with
a token, an optional underscore, the number and a non-digit character. -/
theorem matchPatAt_iff (tokens : List (List Char)) (num s : List Char) :
    matchPatAt tokens num s = true ↔
      ∃ tok mid c rest, tok ∈ tokens ∧ s = tok ++ mid ++ num ++ c :: rest ∧
        (mid = [] ∨ mid = ['_']) ∧ isDigit c = false := by
  unfold matchPatAt
  rw [List.any_eq_true]
  constructor
  · rintro ⟨tok, htok, hm⟩
    rcases hst : stripPrefixChars tok s with _ | rest'
    · rw [hst] at hm
      exact absurd hm (by simp)
    · rw [hst] at hm
      have hs' : s = tok ++ rest' := (stripPrefixChars_eq_some tok s rest').mp hst
      rw [show (match some rest' with
          | none => false
          | some rest => underscoreOpt num rest) = underscoreOpt num rest' from rfl,
        underscoreOpt_iff] at hm
      rcases hm with ⟨rest2, hr2, hnum⟩ | hnum
      · rcases (matchNumAt_iff num rest2).mp hnum with ⟨c, rest3, hre, hd⟩
        refine ⟨tok, ['_'], c, rest3, htok, ?_, Or.inr rfl, hd⟩
        rw [hs', hr2, hre]
        simp
      · rcases (matchNumAt_iff num rest').mp hnum with ⟨c, rest3, hre, hd⟩
        refine ⟨tok, [], c, rest3, htok, ?_, Or.inl rfl, hd⟩
        rw [hs', hre]
        simp
  · rintro ⟨tok, mid, c, rest, htok, hseq, hmid, hd⟩
    refine ⟨tok, htok, ?_⟩
    have hst : stripPrefixChars tok s = some (mid ++ num ++ c :: rest) :=
      (stripPrefixChars_eq_some tok s _).mpr (by rw [hseq]; simp)
    rw [hst]
    show underscoreOpt num (mid ++ num ++ c :: rest) = true
    rw [underscoreOpt_iff]
    rcases hmid with h | h
    · subst h
      right
      exact (matchNumAt_iff num _).mpr ⟨c, rest, by simp, hd⟩
    · subst h
      left
      exact ⟨num ++ c :: rest, by simp, (matchNumAt_iff num _).mpr ⟨c, rest, rfl, hd⟩⟩

/-- The unanchored search succeeds exactly when the pattern matches at
some split of s. -/
theorem searchPat_iff (tokens : List (List Char)) (num : List Char) : ∀ s,
    searchPat tokens num s = true ↔
      ∃ pre suf, s = pre ++ suf ∧ matchPatAt tokens num suf = true := by
  intro s
  induction s with
  | nil =>
    simp only [searchPat, Bool.false_eq_true, false_iff]
    rintro ⟨pre, suf, heq, hm⟩
    rcases List.append_eq_nil.mp heq.symm with ⟨-, h2⟩
    rw [h2, matchPatAt_nil] at hm
    exact Bool.noConfusion hm
  | cons c cs ih =>
    simp only [searchPat, Bool.or_eq_true, ih]
    constructor
    · rintro (h | ⟨pre, suf, heq, hm⟩)
      · exact ⟨[], c :: cs, rfl, h⟩
      · exact ⟨c :: pre, suf, by rw [List.cons_append, heq], hm⟩
    · rintro ⟨pre, suf, heq, hm⟩
      cases pre with
      | nil =>
        left
        rw [List.nil_append] at heq
        rw [heq]
        exact hm
      | cons c0 pre' =>
        right
        rw [List.cons_append] at heq
        injection heq with _ h2
        exact ⟨pre', suf, h2, hm⟩

/-- Full characterization of the query search: it accepts exactly the
strings containing a token, an optional underscore, the number, and then
one non-digit character. -/
theorem searchPat_characterization (tokens : List (List Char)) (num s : List Char) :
    searchPat tokens num s = true ↔
      ∃ pre tok mid c rest, tok ∈ tokens ∧
        s = pre ++ tok ++ mid ++ num ++ c :: rest ∧
        (mid = [] ∨ mid = ['_']) ∧ isDigit c = false := by
  rw [searchPat_iff]
  constructor
  · rintro ⟨pre, suf, heq, hm⟩
    rcases (matchPatAt_iff tokens num suf).mp hm with ⟨tok, mid, c, rest, htok, hseq, hmid, hd⟩
    refine ⟨pre, tok, mid, c, rest, htok, ?_, hmid, hd⟩
    rw [heq, hseq]
    simp [List.append_assoc]
  · rintro ⟨pre, tok, mid, c, rest, htok, hseq, hmid, hd⟩
    refine ⟨pre, tok ++ (mid ++ (num ++ c :: rest)), ?_, ?_⟩
    · rw [hseq]
      simp [List.append_assoc]
    · exact (matchPatAt_iff tokens num _).mpr
        ⟨tok, mid, c, rest, htok, by simp [List.append_assoc], hmid, hd⟩

/-! ## C4: the assignment fetch matcher -/

/-- C4 counterexample: the fetch pattern requires a character after the
number, so in a listing of the bare names assignment_1, assignment_10,
assignment_12 a search for number 1 matches nothing at all — not, as
claimed, exactly assignment_1. -/
theorem assignment_match_claim_counterexample :
    fetch_query_matches .assignment 1 "assignment_1" = false ∧
    (["assignment_1", "assignment_10", "assignment_12"].filter
        (fun name => fetch_query_matches .assignment 1 name)) = [] :=
  ⟨by decide, by decide⟩

/-- C4 amended: the assignment file-name match accepts exactly the names
that contain (case-insensitively) the token assignment, an optional
underscore, the decimal representation of the target number, and then
one further non-digit character — a trailing character is required, so a
name ending immediately after the number is not matched.  On a listing
with file extensions, assignment_1.pdf, assignment_10.pdf,
assignment_12.pdf, a search for 1 matches only assignment_1.pdf. -/
theorem assignment_match_characterization :
    (∀ (n : Int) (name : String),
      fetch_query_matches .assignment n name = true ↔
        ∃ pre mid c rest, lowerChars name.toList =
            pre ++ String.toList "assignment" ++ mid ++ (toString n).toList ++ c :: rest ∧
          (mid = [] ∨ mid = ['_']) ∧ isDigit c = false) ∧
    (["assignment_1.pdf", "assignment_10.pdf", "assignment_12.pdf"].filter
        (fun name => fetch_query_matches .assignment 1 name)) = ["assignment_1.pdf"] := by
  refine ⟨?_, by decide⟩
  intro n name
  unfold fetch_query_matches
  rw [searchPat_characterization]
  constructor
  · rintro ⟨pre, tok, mid, c, rest, htok, hseq, hmid, hd⟩
    simp only [Kind.tokens, List.map, List.mem_singleton] at htok
    subst htok
    exact ⟨pre, mid, c, rest, hseq, hmid, hd⟩
  · rintro ⟨pre, mid, c, rest, hseq, hmid, hd⟩
    exact ⟨pre, String.toList "assignment", mid, c, rest, by simp [Kind.tokens], hseq, hmid, hd⟩

/-! ## Ordered duplicate-free listings -/

/-- Membership through the dedup insertion. -/
theorem mem_insertSortedDedup (x n : Int) (l : List Int) :
    x ∈ insertSortedDedup n l ↔ x = n ∨ x ∈ l := by
  induction l with
  | nil => simp [insertSortedDedup]
  | cons m ms ih =>
    unfold insertSortedDedup
    rcases lt_trichotomy n m with h | h | h
    · rw [if_pos h]
      simp
    · subst h
      rw [if_neg (lt_irrefl n), if_pos rfl]
      simp only [List.mem_cons]
      tauto
    · rw [if_neg (not_lt.mpr h.le), if_neg (ne_of_gt h)]
      simp only [List.mem_cons, ih]
      tauto

/-- The dedup insertion preserves strict ascending order. -/
theorem sorted_insertSortedDedup (n : Int) (l : List Int)
    (hl : l.Sorted (· < ·)) : (insertSortedDedup n l).Sorted (· < ·) := by
  induction l with
  | nil => simp [insertSortedDedup]
  | cons m ms ih =>
    rw [List.sorted_cons] at hl
    obtain ⟨hm, hms⟩ := hl
    unfold insertSortedDedup
    rcases lt_trichotomy n m with h | h | h
    · rw [if_pos h, List.sorted_cons]
      refine ⟨?_, List.sorted_cons.mpr ⟨hm, hms⟩⟩
      intro b hb
      rcases List.mem_cons.mp hb with rfl | hb2
      · exact h
      · exact lt_trans h (hm b hb2)
    · subst h
      rw [if_neg (lt_irrefl n), if_pos rfl]
      exact List.sorted_cons.mpr ⟨hm, hms⟩
    · rw [if_neg (not_lt.mpr h.le), if_neg (ne_of_gt h), List.sorted_cons]
      refine ⟨?_, ih hms⟩
      intro b hb
      rcases (mem_insertSortedDedup b n ms).mp hb with rfl | hb2
      · exact h
      · exact hm b hb2

/-- The distinct-sorted listing is strictly ascending. -/
theorem sorted_sortedDedup (l : List Int) : (sortedDedup l).Sorted (· < ·) := by
  unfold sortedDedup
  induction l with
  | nil => simp
  | cons a l ih => exact sorted_insertSortedDedup a _ ih

/-- The distinct-sorted listing has exactly the members of the input. -/
theorem mem_sortedDedup (x : Int) (l : List Int) : x ∈ sortedDedup l ↔ x ∈ l := by
  unfold sortedDedup
  induction l with
  | nil => simp
  | cons a l ih =>
    rw [List.foldr_cons, mem_insertSortedDedup]
    simp [ih]

/-- The distinct-sorted listing is empty exactly on empty input. -/
theorem sortedDedup_eq_nil (l : List Int) : sortedDedup l = [] ↔ l = [] := by
  constructor
  · intro h
    cases l with
    | nil => rfl
    | cons a l' =>
      exfalso
      have ha : a ∈ sortedDedup (a :: l') := (mem_sortedDedup a _).mpr (List.mem_cons_self a l')
      rw [h] at ha
      exact List.not_mem_nil a ha
  · intro h
    rw [h]
    rfl

/-! ## C5: the listing operations -/

/-- A store whose assignments folder holds a file whose name has no
underscore between the token and the number. -/
def envC5 : Env :=
  ⟨"R",
   fun name parent =>
     if parent = "R" ∧ name = "YY" then .ok [⟨"1", "YY"⟩]
     else if parent = "1" ∧ name = "CSE" then .ok [⟨"2", "CSE"⟩]
     else if parent = "2" ∧ name = "OS" then .ok [⟨"3", "OS"⟩]
     else if parent = "3" ∧ name = "Assignments" then .ok [⟨"4", "Assignments"⟩]
     else .ok [],
   fun _ => .ok [],
   fun parent => if parent = "4" then [⟨"f1", "assignment1.pdf"⟩] else [],
   fun fileId => if fileId = "f1" then some "B1" else none,
   fun _ => False,
   fun _ _ => some "tg-h"⟩

/-- C5 counterexample: the listing extraction and the fetch matcher are
different patterns.  The listing regex requires an underscore between
token and number, the fetch query makes it optional, so for the file
assignment1.pdf the fetch for number 1 succeeds while the listing
reports no assignments at all. -/
theorem listing_pattern_counterexample :
    extract_number .assignment "assignment1.pdf" = none ∧
    fetch_query_matches .assignment 1 "assignment1.pdf" = true ∧
    (list_documents envC5 .assignment (some "YY") ["CSE", "OS"]).1 = ListResult.empty ∧
    (get_document envC5 .assignment (some "YY") ["CSE", "OS", "1"] []).1 =
      FetchResult.delivered :=
  ⟨by decide, by decide, by decide, by decide⟩

/-- C5 amended: the listing operations extract one numeric token per file
with the kind token followed by a required underscore and the maximal
digit run (which differs from the fetch pattern, whose underscore is
optional and which requires a trailing non-digit), silently ignore files
with no match, and return the set of distinct extracted numbers in
strictly ascending order; the empty set is the no-items reply, not an
error result. -/
theorem listing_numbers_sorted_distinct (env : Env) (k : Kind) (year g s folderId : String)
    (rtr : List Event)
    (hres : resolve_path_to_id env env.root [year, pyUpper g, pyUpper s, k.subfolder] =
      (some folderId, rtr)) :
    ((list_documents env k (some year) [g, s]).1 = ListResult.empty ↔
      ∀ f ∈ env.files folderId, extract_number k f.name = none) ∧
    (∀ l, (list_documents env k (some year) [g, s]).1 = ListResult.numbers l →
      l.Sorted (· < ·) ∧
        ∀ m : Int, (m ∈ l ↔ ∃ f ∈ env.files folderId, extract_number k f.name = some m)) := by
  unfold list_documents
  dsimp only
  rw [hres]
  dsimp only
  by_cases hnil : sortedDedup ((env.files folderId).filterMap
      (fun f => extract_number k f.name)) = []
  · rw [if_pos hnil]
    constructor
    · simp only [true_iff]
      rw [sortedDedup_eq_nil, List.filterMap_eq_nil_iff] at hnil
      exact hnil
    · intro l hl
      exact absurd hl (by simp)
  · rw [if_neg hnil]
    constructor
    · constructor
      · intro h
        exact absurd h (by simp)
      · intro hall
        exact absurd (by
          rw [sortedDedup_eq_nil, List.filterMap_eq_nil_iff]
          exact hall) hnil
    · intro l hl
      have hl2 : l = sortedDedup ((env.files folderId).filterMap
          (fun f => extract_number k f.name)) := by
        injection hl with h
        exact h.symm
      subst hl2
      refine ⟨sorted_sortedDedup _, ?_⟩
      intro m
      rw [mem_sortedDedup, List.mem_filterMap]

/-- C5 witness: in the demo store the assignments listing for CSE/DBMS
resolves and the theorem yields the ascending distinct characterization
for the concrete result [2]. -/
theorem listing_numbers_sorted_distinct_witness :
    ([2] : List Int).Sorted (· < ·) ∧
    ∀ m : Int, (m ∈ ([2] : List Int) ↔
      ∃ f ∈ envDemo.files "FA", extract_number .assignment f.name = some m) := by
  have h := listing_numbers_sorted_distinct envDemo .assignment "2nd_Year" "CSE" "DBMS"
    "FA" [Event.driveLookup "2nd_Year" "ROOT", Event.driveLookup "CSE" "Y",
      Event.driveLookup "DBMS" "G", Event.driveLookup "Assignments" "S"] (by decide)
  exact h.2 [2] (by decide)


/-! ## Fetch pipeline lemmas -/

/-- A cache write event never appears in a resolution trace. -/
theorem cachePut_not_mem_resolve (env : Env) (cur : String) (parts : List String)
    (key : CacheKey) (h : String) :
    Event.cachePut key h ∉ (resolve_path_to_id env cur parts).2 := by
  intro hmem
  rcases resolve_trace_lookups env parts cur _ hmem with ⟨nm, p, he⟩
  exact Event.noConfusion he

/-- Evaluation of the fresh-fetch tail when every step succeeds:
resolution, a nonempty match list, the download and the delivery. -/
theorem fetch_fresh_success (env : Env) (k : Kind) (year group subject : String)
    (n : Int) (cache : Cache) (fid : String) (rtr : List Event) (f : DriveFile)
    (fs : List DriveFile) (content h2 : String)
    (h4 : resolve_path_to_id env env.root [year, group, subject, k.subfolder] =
      (some fid, rtr))
    (h5 : (env.files fid).filter (fun f2 => fetch_query_matches k n f2.name) = f :: fs)
    (h6 : env.download f.id = some content)
    (h7 : env.sendContent content f.name = some h2) :
    fetch_fresh env k year group subject n cache =
      (.delivered, k.putCached cache year group subject n h2,
        rtr ++ [Event.driveQuery fid, Event.driveDownload f.id, Event.sendContent f.name,
          Event.cachePut (CacheKey.mk year group subject n) h2]) := by
  unfold fetch_fresh
  rw [h4]
  dsimp only
  rw [h5]
  dsimp only
  rw [h6]
  dsimp only
  rw [h7]

/-- Structure of the fresh-fetch tail: when it does not deliver, the
cache value is returned unchanged and no cache write event appears in the
trace; when it delivers, the new cache is exactly an upsert of the key
and the trace contains a download and a fresh delivery. -/
theorem fetch_fresh_spec (env : Env) (k : Kind) (year group subject : String)
    (n : Int) (cache : Cache) :
    ((fetch_fresh env k year group subject n cache).1 ≠ FetchResult.delivered →
      (fetch_fresh env k year group subject n cache).2.1 = cache ∧
      ∀ key h, Event.cachePut key h ∉ (fetch_fresh env k year group subject n cache).2.2) ∧
    ((fetch_fresh env k year group subject n cache).1 = FetchResult.delivered →
      ∃ h2, (fetch_fresh env k year group subject n cache).2.1 =
          k.putCached cache year group subject n h2 ∧
        (∃ fid2, Event.driveDownload fid2 ∈
          (fetch_fresh env k year group subject n cache).2.2) ∧
        (∃ nm, Event.sendContent nm ∈
          (fetch_fresh env k year group subject n cache).2.2)) := by
  unfold fetch_fresh
  split
  · refine ⟨fun _ => ⟨rfl, ?_⟩, fun hcon => absurd hcon (by simp)⟩
    intro key h
    exact cachePut_not_mem_resolve env env.root _ key h
  · split
    · refine ⟨fun _ => ⟨rfl, ?_⟩, fun hcon => absurd hcon (by simp)⟩
      intro key h hmem
      simp only [List.mem_append, List.mem_singleton] at hmem
      rcases hmem with hmem | hmem
      · exact cachePut_not_mem_resolve env env.root _ key h hmem
      · exact Event.noConfusion hmem
    · split
      · refine ⟨fun _ => ⟨rfl, ?_⟩, fun hcon => absurd hcon (by simp)⟩
        intro key h hmem
        simp only [List.mem_append, List.mem_cons, List.mem_singleton,
          List.not_mem_nil, or_false] at hmem
        rcases hmem with hmem | hmem | hmem
        · exact cachePut_not_mem_resolve env env.root _ key h hmem
        · exact Event.noConfusion hmem
        · exact Event.noConfusion hmem
      · split
        · refine ⟨fun _ => ⟨rfl, ?_⟩, fun hcon => absurd hcon (by simp)⟩
          intro key h hmem
          simp only [List.mem_append, List.mem_cons, List.mem_singleton,
            List.not_mem_nil, or_false] at hmem
          rcases hmem with hmem | hmem | hmem
          · exact cachePut_not_mem_resolve env env.root _ key h hmem
          · exact Event.noConfusion hmem
          · exact Event.noConfusion hmem
        · rename_i xa fId hres xb f ftail hfil xc content hdl xd h2 hsc
          refine ⟨fun hne => absurd rfl hne,
            fun _ => ⟨h2, rfl, ⟨f.id, ?_⟩, ⟨f.name, ?_⟩⟩⟩
          · simp
          · simp

/-- Evaluation of a fetch on a cache hit whose handle the gateway
accepts: the file is redelivered by handle and nothing else happens. -/
theorem cache_hit_eval (env : Env) (k : Kind) (year g s numStr : String) (n : Int)
    (c1 : Cache) (h2 : String)
    (hn : pyInt numStr = some n)
    (hc1 : k.getCached c1 year (pyUpper g) (pyUpper s) n = some h2)
    (hsend : env.sendByHandle h2 = true) :
    get_document env k (some year) [g, s, numStr] c1 =
      (FetchResult.delivered, c1,
        [Event.cacheGet (CacheKey.mk year (pyUpper g) (pyUpper s) n),
          Event.sendById h2]) := by
  unfold get_document
  dsimp only
  rw [hn]
  dsimp only
  rw [hc1]
  dsimp only
  rw [if_pos hsend]

/-- A delivered fresh fetch leaves a handle in the cache under the
normalized request key. -/
theorem delivered_fresh_cached (env : Env) (k : Kind) (year G S : String) (n : Int)
    (cache c1 : Cache)
    (e1 : (fetch_fresh env k year G S n cache).1 = FetchResult.delivered)
    (e2 : (fetch_fresh env k year G S n cache).2.1 = c1) :
    ∃ h2, k.getCached c1 year G S n = some h2 := by
  obtain ⟨h2, hput, -, -⟩ := (fetch_fresh_spec env k year G S n cache).2 e1
  refine ⟨h2, ?_⟩
  rw [← e2, hput]
  exact Kind.getCached_putCached k cache year G S n h2

/-! ## C1: stale-handle recovery -/

/-- C1: when the cached handle for the key is rejected by the gateway,
the fetch performs exactly one re-resolution of the folder chain and one
re-download — the trace is exact: one cache read, one rejected
redelivery, the resolution lookups once, one files query, one download,
one fresh delivery, one cache write — overwrites the cache entry for the
key by an upsert applied to the unchanged original cache (the stale
entry is not deleted beforehand; the cache API has no delete at all),
and returns delivered, never surfacing the stale-handle rejection. -/
theorem stale_handle_recovery (env : Env) (k : Kind) (year g s numStr : String)
    (n : Int) (cache : Cache) (stale fid : String) (rtr : List Event) (f : DriveFile)
    (fs : List DriveFile) (content h2 : String)
    (hn : pyInt numStr = some n)
    (h1 : k.getCached cache year (pyUpper g) (pyUpper s) n = some stale)
    (h3 : env.sendByHandle stale = false)
    (h4 : resolve_path_to_id env env.root [year, pyUpper g, pyUpper s, k.subfolder] =
      (some fid, rtr))
    (h5 : (env.files fid).filter (fun f2 => fetch_query_matches k n f2.name) = f :: fs)
    (h6 : env.download f.id = some content)
    (h7 : env.sendContent content f.name = some h2) :
    get_document env k (some year) [g, s, numStr] cache =
      (.delivered, k.putCached cache year (pyUpper g) (pyUpper s) n h2,
        Event.cacheGet (CacheKey.mk year (pyUpper g) (pyUpper s) n) ::
          Event.sendById stale ::
            (rtr ++ [Event.driveQuery fid, Event.driveDownload f.id,
              Event.sendContent f.name,
              Event.cachePut (CacheKey.mk year (pyUpper g) (pyUpper s) n) h2])) ∧
    k.getCached (k.putCached cache year (pyUpper g) (pyUpper s) n h2)
        year (pyUpper g) (pyUpper s) n = some h2 := by
  constructor
  · unfold get_document
    dsimp only
    rw [hn]
    dsimp only
    rw [h1]
    dsimp only
    rw [if_neg (by simp [h3])]
    rw [fetch_fresh_success env k year (pyUpper g) (pyUpper s) n cache fid rtr f fs
      content h2 h4 h5 h6 h7]
  · exact Kind.getCached_putCached k cache year (pyUpper g) (pyUpper s) n h2

/-- C1 witness: in the demo store, with the stale handle tg-old cached
for (2nd_Year, CSE, DBMS, 2), the fetch re-resolves once, re-downloads
once, overwrites the entry with tg-new and delivers. -/
theorem stale_handle_recovery_witness :
    get_document envDemo .assignment (some "2nd_Year") ["CSE", "DBMS", "2"] cacheDemo =
      (FetchResult.delivered,
        cache_assignment_id cacheDemo "2nd_Year" "CSE" "DBMS" 2 "tg-new",
        [Event.cacheGet (CacheKey.mk "2nd_Year" "CSE" "DBMS" 2), Event.sendById "tg-old",
          Event.driveLookup "2nd_Year" "ROOT", Event.driveLookup "CSE" "Y",
          Event.driveLookup "DBMS" "G", Event.driveLookup "Assignments" "S",
          Event.driveQuery "FA", Event.driveDownload "fa2",
          Event.sendContent "Assignment_2_final.pdf",
          Event.cachePut (CacheKey.mk "2nd_Year" "CSE" "DBMS" 2) "tg-new"]) ∧
    get_cached_assignment_id
        (cache_assignment_id cacheDemo "2nd_Year" "CSE" "DBMS" 2 "tg-new")
        "2nd_Year" "CSE" "DBMS" 2 = some "tg-new" := by
  have h := stale_handle_recovery envDemo .assignment "2nd_Year" "CSE" "DBMS" "2" 2
    cacheDemo "tg-old" "FA"
    [Event.driveLookup "2nd_Year" "ROOT", Event.driveLookup "CSE" "Y",
      Event.driveLookup "DBMS" "G", Event.driveLookup "Assignments" "S"]
    ⟨"fa2", "Assignment_2_final.pdf"⟩ [] "BYTES-A2" "tg-new"
    (by decide) (by decide) (by decide) (by decide) (by decide) (by decide) (by decide)
  exact ⟨h.1.trans (by decide), h.2.trans (by decide)⟩

/-! ## C2: cache-hit fast path -/

/-- C2: after any fetch that delivered, the kind cache holds a handle for
the normalized request key, and a subsequent fetch with the same
arguments whose cached handle the gateway accepts delivers via that
handle with a trace of exactly one cache read and one redelivery — no
Remote File Store call at all: no folder lookup, no files query, no
download. -/
theorem cached_fast_path (env : Env) (k : Kind) (year g s numStr : String) (n : Int)
    (cache c1 : Cache) (tr : List Event)
    (hn : pyInt numStr = some n)
    (hcall : get_document env k (some year) [g, s, numStr] cache =
      (FetchResult.delivered, c1, tr)) :
    ∃ h2, k.getCached c1 year (pyUpper g) (pyUpper s) n = some h2 ∧
      (env.sendByHandle h2 = true →
        get_document env k (some year) [g, s, numStr] c1 =
          (FetchResult.delivered, c1,
            [Event.cacheGet (CacheKey.mk year (pyUpper g) (pyUpper s) n),
              Event.sendById h2])) := by
  unfold get_document at hcall
  dsimp only at hcall
  rw [hn] at hcall
  dsimp only at hcall
  rcases hc : k.getCached cache year (pyUpper g) (pyUpper s) n with _ | cachedId
  · rw [hc] at hcall
    dsimp only at hcall
    rw [Prod.mk.injEq, Prod.mk.injEq] at hcall
    obtain ⟨e1, e2, -⟩ := hcall
    obtain ⟨h2, hc1⟩ := delivered_fresh_cached env k year (pyUpper g) (pyUpper s) n
      cache c1 e1 e2
    exact ⟨h2, hc1, fun hsend =>
      cache_hit_eval env k year g s numStr n c1 h2 hn hc1 hsend⟩
  · rw [hc] at hcall
    dsimp only at hcall
    by_cases hsb : env.sendByHandle cachedId = true
    · rw [if_pos hsb] at hcall
      rw [Prod.mk.injEq, Prod.mk.injEq] at hcall
      obtain ⟨-, e2, -⟩ := hcall
      have hc1 : k.getCached c1 year (pyUpper g) (pyUpper s) n = some cachedId := by
        rw [← e2]
        exact hc
      exact ⟨cachedId, hc1, fun hsend =>
        cache_hit_eval env k year g s numStr n c1 cachedId hn hc1 hsend⟩
    · rw [if_neg hsb] at hcall
      rw [Prod.mk.injEq, Prod.mk.injEq] at hcall
      obtain ⟨e1, e2, -⟩ := hcall
      obtain ⟨h2, hc1⟩ := delivered_fresh_cached env k year (pyUpper g) (pyUpper s) n
        cache c1 e1 e2
      exact ⟨h2, hc1, fun hsend =>
        cache_hit_eval env k year g s numStr n c1 h2 hn hc1 hsend⟩

/-- C2 witness: a successful fetch wrote tg-new for the demo key; the
same request against the resulting cache delivers from the cache with no
drive event in the trace. -/
theorem cached_fast_path_witness :
    get_document envDemo .assignment (some "2nd_Year") ["CSE", "DBMS", "2"]
        [(CacheKey.mk "2nd_Year" "CSE" "DBMS" 2, "tg-new")] =
      (FetchResult.delivered,
        [(CacheKey.mk "2nd_Year" "CSE" "DBMS" 2, "tg-new")],
        [Event.cacheGet (CacheKey.mk "2nd_Year" "CSE" "DBMS" 2),
          Event.sendById "tg-new"]) := by
  have h := cached_fast_path envDemo .assignment "2nd_Year" "CSE" "DBMS" "2" 2
    ([] : Cache) [(CacheKey.mk "2nd_Year" "CSE" "DBMS" 2, "tg-new")]
    [Event.cacheGet (CacheKey.mk "2nd_Year" "CSE" "DBMS" 2),
      Event.driveLookup "2nd_Year" "ROOT", Event.driveLookup "CSE" "Y",
      Event.driveLookup "DBMS" "G", Event.driveLookup "Assignments" "S",
      Event.driveQuery "FA", Event.driveDownload "fa2",
      Event.sendContent "Assignment_2_final.pdf",
      Event.cachePut (CacheKey.mk "2nd_Year" "CSE" "DBMS" 2) "tg-new"]
    (by decide) (by decide)
  obtain ⟨h2, hc, himp⟩ := h
  have hh : some h2 = some "tg-new" := hc.symm.trans (by decide)
  injection hh with hh2
  subst hh2
  exact (himp (by decide)).trans (by decide)

/-! ## C9: failures leave the cache unchanged -/

/-- C9: a fetch that does not deliver — in particular one ending in a
not-found reply — returns the cache unchanged and performs no cache
write; and any cache write in a trace means the fetch delivered after a
successful download and fresh delivery. -/
theorem fetch_failure_preserves_cache (env : Env) (k : Kind) (session : Option String)
    (args : List String) (cache : Cache) :
    ((get_document env k session args cache).1 ≠ FetchResult.delivered →
      (get_document env k session args cache).2.1 = cache ∧
      ∀ key h, Event.cachePut key h ∉ (get_document env k session args cache).2.2) ∧
    (∀ key h, Event.cachePut key h ∈ (get_document env k session args cache).2.2 →
      (get_document env k session args cache).1 = FetchResult.delivered ∧
      (∃ fid2, Event.driveDownload fid2 ∈ (get_document env k session args cache).2.2) ∧
      (∃ nm, Event.sendContent nm ∈ (get_document env k session args cache).2.2)) := by
  unfold get_document
  split
  · exact ⟨fun _ => ⟨rfl, by simp⟩, by simp⟩
  · split
    · split
      · exact ⟨fun _ => ⟨rfl, by simp⟩, by simp⟩
      · rename_i year args2 g s numStr xn n hn
        obtain ⟨hno, hyes⟩ := fetch_fresh_spec env k year (pyUpper g) (pyUpper s) n cache
        split
        · rename_i xc cachedId hc
          split
          · exact ⟨fun hne => absurd rfl hne, by
              intro key h hmem
              rcases List.mem_cons.mp hmem with he | hmem2
              · exact absurd he (by simp)
              · rcases List.mem_cons.mp hmem2 with he2 | hmem3
                · exact absurd he2 (by simp)
                · exact absurd hmem3 (List.not_mem_nil _)⟩
          · constructor
            · intro hne
              obtain ⟨hcc, hput⟩ := hno hne
              refine ⟨hcc, ?_⟩
              intro key h hmem
              rcases List.mem_cons.mp hmem with he | hmem2
              · exact Event.noConfusion he
              · rcases List.mem_cons.mp hmem2 with he2 | hmem3
                · exact Event.noConfusion he2
                · exact hput key h hmem3
            · intro key h hmem
              rcases List.mem_cons.mp hmem with he | hmem2
              · exact Event.noConfusion he
              · rcases List.mem_cons.mp hmem2 with he2 | hmem3
                · exact Event.noConfusion he2
                · by_cases hd : (fetch_fresh env k year (pyUpper g) (pyUpper s) n cache).1 =
                      FetchResult.delivered
                  · obtain ⟨h2, -, ⟨fid2, hdl⟩, ⟨nm, hscm⟩⟩ := hyes hd
                    exact ⟨hd, ⟨fid2, List.mem_cons_of_mem _ (List.mem_cons_of_mem _ hdl)⟩,
                      ⟨nm, List.mem_cons_of_mem _ (List.mem_cons_of_mem _ hscm)⟩⟩
                  · exact absurd hmem3 ((hno hd).2 key h)
        · constructor
          · intro hne
            obtain ⟨hcc, hput⟩ := hno hne
            refine ⟨hcc, ?_⟩
            intro key h hmem
            rcases List.mem_cons.mp hmem with he | hmem2
            · exact Event.noConfusion he
            · exact hput key h hmem2
          · intro key h hmem
            rcases List.mem_cons.mp hmem with he | hmem2
            · exact Event.noConfusion he
            · by_cases hd : (fetch_fresh env k year (pyUpper g) (pyUpper s) n cache).1 =
                  FetchResult.delivered
              · obtain ⟨h2, -, ⟨fid2, hdl⟩, ⟨nm, hscm⟩⟩ := hyes hd
                exact ⟨hd, ⟨fid2, List.mem_cons_of_mem _ hdl⟩,
                  ⟨nm, List.mem_cons_of_mem _ hscm⟩⟩
              · exact absurd hmem2 ((hno hd).2 key h)
    · exact ⟨fun _ => ⟨rfl, by simp⟩, by simp⟩

/-- C9 witness: requesting the absent assignment 5 in the demo store
ends without delivery and leaves the cache exactly as it was. -/
theorem fetch_failure_preserves_cache_witness :
    (get_document envDemo .assignment (some "2nd_Year") ["CSE", "DBMS", "5"]
        cacheDemo).2.1 = cacheDemo := by
  have h := fetch_failure_preserves_cache envDemo .assignment (some "2nd_Year")
    ["CSE", "DBMS", "5"] cacheDemo
  exact (h.1 (by decide)).1

/-! ## C10: the number-argument gate -/

/-- C10: a third argument that does not parse as an integer is rejected
with the usage reply before any cache access or Remote File Store call
(empty trace, cache unchanged); every value that does parse — zero and
negative values included — is accepted and becomes the number of the
normalized cache key, whose lookup is the first recorded call; the
data-model bound number ≥ 1 is not enforced here. -/
theorem number_parse_gate (env : Env) (k : Kind) (year g s numStr : String)
    (cache : Cache) :
    (pyInt numStr = none →
      get_document env k (some year) [g, s, numStr] cache =
        (FetchResult.badNumber, cache, [])) ∧
    (∀ n : Int, pyInt numStr = some n →
      (get_document env k (some year) [g, s, numStr] cache).2.2.head? =
        some (Event.cacheGet (CacheKey.mk year (pyUpper g) (pyUpper s) n))) ∧
    pyInt "0" = some 0 ∧ pyInt "-3" = some (-3) ∧ pyInt "007" = some 7 ∧
    pyInt "abc" = none ∧ pyInt "2.5" = none := by
  refine ⟨?_, ?_, by decide, by decide, by decide, by decide, by decide⟩
  · intro h
    unfold get_document
    dsimp only
    rw [h]
  · intro n h
    unfold get_document
    dsimp only
    rw [h]
    dsimp only
    split
    · split
      · rfl
      · rfl
    · rfl

/-- C10 witness: abc is rejected with an empty trace and unchanged cache;
-3 parses and is used as the cache-key number of the first recorded
cache lookup. -/
theorem number_parse_gate_witness :
    get_document envDemo .assignment (some "2nd_Year") ["CSE", "DBMS", "abc"]
        cacheDemo = (FetchResult.badNumber, cacheDemo, []) ∧
    (get_document envDemo .assignment (some "2nd_Year") ["CSE", "DBMS", "-3"]
        cacheDemo).2.2.head? =
      some (Event.cacheGet (CacheKey.mk "2nd_Year" "CSE" "DBMS" (-3))) := by
  have h := number_parse_gate envDemo .assignment "2nd_Year" "CSE" "DBMS" "abc" cacheDemo
  have h2 := number_parse_gate envDemo .assignment "2nd_Year" "CSE" "DBMS" "-3" cacheDemo
  refine ⟨h.1 (by decide), ?_⟩
  exact (h2.2.1 (-3) (by decide)).trans (by decide)
